/-
  Verification of the vividly CalDAV synchronization engine.

  Shallow embedding of the sync engine (`src/services/caldav.ts`), the event
  store adapter (`api.ts`), the ICS codec (`icsParser.ts` and the proxy's
  `parseICalEvent`), and the proxy's `deleteEvent`, as pure Lean functions.

  Conventions of the embedding:
  * The Supabase event store is a `List StoredEvent`; a query becomes a
    `List.filter` / `List.find?`, an update becomes a `List.map`, and a delete
    becomes a `List.filter`.  Database errors are not modelled (every store
    call takes the success path); network calls are supplied as explicit
    oracle arguments.
  * JavaScript string truthiness (`if (uid)`) is modelled by `jsTruthy`:
    `undefined`/`null`/`""` are falsy.
  * The JS float comparisons `toDelete.length > existing.length * 0.9` and
    `... * 0.8` are modelled exactly by the integer comparisons
    `10 * toDelete > 9 * existing` and `5 * toDelete > 4 * existing`; for
    integer operands the IEEE-754 evaluation and the rational one agree
    (the products round to the exact value whenever the exact value is
    representable, and otherwise the two sides are at least 0.1 apart).
-/
import Mathlib

namespace Vividly

/-- JS truthiness of an optional string: `undefined`, `null` and `""` are
falsy, every other string is truthy. -/
def jsTruthy : Option String → Bool
  | none => false
  | some s => !s.isEmpty

/-- Source `url.replace(/\/+$/, '')`: strip all trailing slashes
(`normalizeCalendarUrl` in both `caldav.ts` and `api.ts`). -/
def stripTrailingSlashes (s : String) : String :=
  ⟨(s.data.reverse.dropWhile (· = '/')).reverse⟩

/-- Source `event.startTime || ''` — an absent or empty time renders as `''`. -/
def orEmpty : Option String → String
  | none => ""
  | some s => s

/-- A row of the `events` table, as selected by the sync-related queries of
`api.ts` (`id, caldav_uid, title, date, memo, start_time, end_time, color,
calendar_url, source`). -/
structure StoredEvent where
  id : Nat
  title : String
  date : String
  memo : Option String
  startTime : Option String
  endTime : Option String
  color : String
  calendarUrl : Option String
  caldavUid : Option String
  source : Option String
deriving Repr, DecidableEq

/-- A remote event as decoded from CalDAV (`Omit<Event,'id'>` plus the
optional `uid` attached by the proxy's parser). -/
structure RemoteEvent where
  title : String
  date : String
  memo : Option String
  startTime : Option String
  endTime : Option String
  color : String
  uid : Option String
deriving Repr, DecidableEq

/-- The dedup key `` `${title}|${date}|${startTime || ''}|${endTime || ''}` ``
built by `deleteRemovedEvents` for a fetched remote event. -/
def remoteKey (e : RemoteEvent) : String :=
  e.title ++ "|" ++ e.date ++ "|" ++ orEmpty e.startTime ++ "|" ++ orEmpty e.endTime

/-- The same key built from a stored row
(`` `${title}|${date}|${start_time || ''}|${end_time || ''}` ``). -/
def storedKey (e : StoredEvent) : String :=
  e.title ++ "|" ++ e.date ++ "|" ++ orEmpty e.startTime ++ "|" ++ orEmpty e.endTime

/-- The store query of `deleteRemovedEvents`:
`.in('calendar_url', altCalendarUrl ? [normalized, normalized + '/'] : [normalized])
 .eq('source', 'caldav')` where `altCalendarUrl` is only set for a non-empty
normalized URL. -/
def caldavEventsFor (store : List StoredEvent) (normalized : String) : List StoredEvent :=
  store.filter (fun e =>
    (if normalized.isEmpty then e.calendarUrl == some normalized
     else e.calendarUrl == some normalized || e.calendarUrl == some (normalized ++ "/"))
    && e.source == some "caldav")

/-- The `toDelete` list computed by `deleteRemovedEvents`: ids of existing
rows whose truthy `caldav_uid` is not among the seen UIDs, or — for rows
without a truthy UID — whose `title|date|start|end` key is absent from the
current remote key set. -/
def deletionCandidates (existingEvents : List StoredEvent) (currentUids : List String)
    (currentEvents : List RemoteEvent) : List Nat :=
  let currentEventKeys := currentEvents.map remoteKey
  (existingEvents.filter (fun e =>
    if jsTruthy e.caldavUid then
      decide ((e.caldavUid.getD "") ∉ currentUids)
    else
      decide (storedKey e ∉ currentEventKeys))).map (·.id)

/-- Source `deleteRemovedEvents(calendarUrl, currentUids, currentEvents)` from
`api.ts`, over an explicit store.  Returns the reported deleted count and the
store after the batched deletes (all batches succeed in this embedding; a
batch of ≤ 50 ids contributes its full length to the count, so the count is
`toDelete.length`).  The guards are, in source order: the empty-fetch skip,
the `> 100` empty-fetch skip, and the `≥ 10` / `> 90%` runaway-deletion
abort.  The 80 % case only logs a warning and proceeds. -/
def deleteRemovedEvents (store : List StoredEvent) (calendarUrl : String)
    (currentUids : List String) (currentEvents : List RemoteEvent) :
    Nat × List StoredEvent :=
  let normalized := stripTrailingSlashes calendarUrl
  if currentEvents.isEmpty && currentUids.isEmpty then (0, store)
  else
    let existingEvents := caldavEventsFor store normalized
    if existingEvents.length > 100 && currentEvents.isEmpty && currentUids.isEmpty then
      (0, store)
    else
      let toDelete := deletionCandidates existingEvents currentUids currentEvents
      if existingEvents.length ≥ 10 && 10 * toDelete.length > 9 * existingEvents.length then
        (0, store)
      else
        (toDelete.length, store.filter (fun e => decide (e.id ∉ toDelete)))

/-! ### Event store adapter (`api.ts`), success path -/

/-- Source `eventExistsByUID(uid, calendarUrl)`: a row with `caldav_uid = uid` and
`calendar_url = normalized(calendarUrl)` exists. -/
def eventExistsByUID (store : List StoredEvent) (uid calendarUrl : String) : Bool :=
  store.any (fun e =>
    e.caldavUid == some uid && e.calendarUrl == some (stripTrailingSlashes calendarUrl))

/-- Source `fetchEventByUID(uid, calendarUrl)` via `.maybeSingle()`; the store
invariant keeps at most one row per `(caldav_uid, calendar_url)`, so the
first match models the single row. -/
def fetchEventByUID (store : List StoredEvent) (uid calendarUrl : String) :
    Option StoredEvent :=
  store.find? (fun e =>
    e.caldavUid == some uid && e.calendarUrl == some (stripTrailingSlashes calendarUrl))

/-- The `updates` object assembled by `syncSelectedCalendars` before calling
`updateEventByUID`.  An outer `none` means the key is absent; for `memo`,
`startTime` and `endTime` the inner option is the possibly-`null` value. -/
structure UpdatePayload where
  title : Option String
  date : Option String
  memo : Option (Option String)
  startTime : Option (Option String)
  endTime : Option (Option String)
  color : Option String
deriving Repr, DecidableEq

/-- The field-level diff of `syncSelectedCalendars` (lines 473–482 of
`caldav.ts`): a key is set exactly when the stored value differs from the
remote one (`??`/`normalizeTime` collapse `undefined` and `null`, which the
`Option` type already does). -/
def computeUpdates (existing : StoredEvent) (ev : RemoteEvent) : UpdatePayload :=
  { title := if existing.title ≠ ev.title then some ev.title else none
    date := if existing.date ≠ ev.date then some ev.date else none
    memo := if existing.memo ≠ ev.memo then some ev.memo else none
    startTime := if existing.startTime ≠ ev.startTime then some ev.startTime else none
    endTime := if existing.endTime ≠ ev.endTime then some ev.endTime else none
    color := if existing.color ≠ ev.color then some ev.color else none }

/-- Source `Object.keys(updates).length > 0`. -/
def hasUpdates (u : UpdatePayload) : Bool :=
  u.title.isSome || u.date.isSome || u.memo.isSome ||
    u.startTime.isSome || u.endTime.isSome || u.color.isSome

/-- The row update performed by `updateEventByUID`: its DB payload is built
only from `title`, `date`, `memo`, `start_time` and `end_time` — a `color`
key in `updates` is never copied into the payload, so the stored color is
left as it is. -/
def applyUpdatePayload (u : UpdatePayload) (e : StoredEvent) : StoredEvent :=
  { e with
    title := u.title.getD e.title
    date := u.date.getD e.date
    memo := u.memo.getD e.memo
    startTime := u.startTime.getD e.startTime
    endTime := u.endTime.getD e.endTime }

/-- Source `updateEventByUID(uid, calendarUrl, updates)`: updates every row matching
`(caldav_uid, calendar_url)` (the success path returns `true`). -/
def updateEventByUID (store : List StoredEvent) (uid calendarUrl : String)
    (u : UpdatePayload) : List StoredEvent :=
  store.map (fun e =>
    if e.caldavUid == some uid && e.calendarUrl == some (stripTrailingSlashes calendarUrl)
    then applyUpdatePayload u e else e)

/-- Source `event.startTime || null` — an absent or empty string becomes `null`. -/
def jsOrNull : Option String → Option String
  | none => none
  | some s => if s.isEmpty then none else some s

/-- A SQL `.eq(col, value)` filter where `value` may be `null`: comparing a
column against `NULL` with `=` matches no row (and a PostgREST cast error on
`eq.null` likewise produces the error/`null` outcome). -/
def sqlEqNullable (colVal q : Option String) : Bool :=
  match q with
  | none => false
  | some v => colVal == some v

/-- Source `findEventByDetails(event, calendarUrl)`: first UID-less caldav row
matching title, date, times and calendar. -/
def findEventByDetails (store : List StoredEvent) (ev : RemoteEvent)
    (calendarUrl : String) : Option Nat :=
  (store.find? (fun e =>
    e.title == ev.title && e.date == ev.date &&
    sqlEqNullable e.startTime (jsOrNull ev.startTime) &&
    sqlEqNullable e.endTime (jsOrNull ev.endTime) &&
    e.calendarUrl == some (stripTrailingSlashes calendarUrl) &&
    e.source == some "caldav" &&
    e.caldavUid == none)).map (·.id)

/-- Source `updateEventUID(eventId, uid, calendarUrl)`: attach the UID (and the
normalized calendar URL, `source = 'caldav'`) to the row with this id. -/
def updateEventUID (store : List StoredEvent) (eventId : Nat) (uid calendarUrl : String) :
    List StoredEvent :=
  store.map (fun e =>
    if e.id == eventId then
      { e with caldavUid := some uid
               calendarUrl := some (stripTrailingSlashes calendarUrl)
               source := some "caldav" }
    else e)

/-- Source `eventExists(event, calendarUrl, 'caldav')`: duplicate check by title,
date, times (`is null` for falsy times), calendar and
`source in (source, null)`. -/
def eventExists (store : List StoredEvent) (ev : RemoteEvent)
    (calendarUrl : String) (source : String) : Bool :=
  let normalized := stripTrailingSlashes calendarUrl
  store.any (fun e =>
    e.title == ev.title && e.date == ev.date &&
    (e.source == some source || e.source == none) &&
    (if jsTruthy ev.startTime then e.startTime == some (ev.startTime.getD "")
     else e.startTime == none) &&
    (if jsTruthy ev.endTime then e.endTime == some (ev.endTime.getD "")
     else e.endTime == none) &&
    (if normalized.isEmpty then true else e.calendarUrl == some normalized))

/-- Source `createEvent(...)`: the inserted row.  `caldav_uid` is set only for a
truthy UID, `calendar_url` only for a truthy normalized URL; the new row gets
a fresh id. -/
def mkCreatedEvent (id : Nat) (ev : RemoteEvent) (uid : Option String)
    (calendarUrl : String) (source : String) : StoredEvent :=
  let normalized := stripTrailingSlashes calendarUrl
  { id := id
    title := ev.title
    date := ev.date
    memo := ev.memo
    startTime := ev.startTime
    endTime := ev.endTime
    color := ev.color
    calendarUrl := if normalized.isEmpty then none else some normalized
    caldavUid := if jsTruthy uid then uid else none
    source := some source }

/-! ### Sync engine (`caldav.ts`) -/

/-- Result shape of `fetchSyncCollection` after its `|| []` / `|| null` /
`Boolean(...)` post-processing. -/
structure SyncCollectionResult where
  events : List RemoteEvent
  syncToken : Option String
  hasDeletions : Bool
deriving Repr, DecidableEq

/-- A JS `Date` at day granularity; `setFullYear(getFullYear() ± 1)` only
shifts the year. -/
structure JSDate where
  year : Int
  month : Nat
  day : Nat
deriving Repr, DecidableEq

/-- Source `d.setFullYear(d.getFullYear() + k)`. -/
def yearShift (d : JSDate) (k : Int) : JSDate :=
  { d with year := d.year + k }

/-- The environment of one `syncSelectedCalendars` call: the current time and
the responses of the network calls.  `none` from `syncCollectionResult` or
`fetchEventsResult` models the call throwing; `fetchSyncToken` catches its
own errors and returns `null` instead.  `writeTokensThrows` models
`localStorage.setItem` failing in `writeSyncTokens`. -/
structure SyncEnv where
  now : JSDate
  syncCollectionResult : String → String → Option SyncCollectionResult
  fetchEventsResult : String → JSDate → JSDate → Option (List RemoteEvent)
  fetchSyncTokenResult : String → Option String
  writeTokensThrows : Bool

/-- Mutable state of the per-event reconciliation loop: the store, the next
fresh row id, the per-calendar counters and the pass's seen-UID set. -/
structure ReconcileState where
  store : List StoredEvent
  nextId : Nat
  synced : Nat
  skipped : Nat
  seenUids : List String
deriving Repr, DecidableEq

/-- One iteration of the `for (const event of eventsToProcess)` loop of
`syncSelectedCalendars` (lines 450–539), on the success path of every store
call.  `calendarUrl` is already normalized by the caller. -/
def reconcileEvent (calendarUrl : String) (st : ReconcileState) (ev : RemoteEvent) :
    ReconcileState :=
  if jsTruthy ev.uid then
    let uid := ev.uid.getD ""
    let st := { st with seenUids := st.seenUids ++ [uid] }
    if eventExistsByUID st.store uid calendarUrl then
      match fetchEventByUID st.store uid calendarUrl with
      | some existing =>
          let updates := computeUpdates existing ev
          if hasUpdates updates then
            { st with store := updateEventByUID st.store uid calendarUrl updates
                      synced := st.synced + 1 }
          else
            { st with skipped := st.skipped + 1 }
      | none => { st with skipped := st.skipped + 1 }
    else
      match findEventByDetails st.store ev calendarUrl with
      | some eventId =>
          { st with store := updateEventUID st.store eventId uid calendarUrl
                    skipped := st.skipped + 1 }
      | none =>
          { st with store := st.store ++ [mkCreatedEvent st.nextId ev (some uid) calendarUrl "caldav"]
                    nextId := st.nextId + 1
                    synced := st.synced + 1 }
  else
    if eventExists st.store ev calendarUrl "caldav" then
      { st with skipped := st.skipped + 1 }
    else
      { st with store := st.store ++ [mkCreatedEvent st.nextId ev none calendarUrl "caldav"]
                nextId := st.nextId + 1
                synced := st.synced + 1 }

/-- Token-map lookup `syncTokens[calendarUrl]`. -/
def getToken (tokens : List (String × String)) (calendarUrl : String) : Option String :=
  (tokens.find? (fun p => p.1 == calendarUrl)).map (·.2)

/-- Token-map assignment `syncTokens[calendarUrl] = token`. -/
def setToken (tokens : List (String × String)) (calendarUrl token : String) :
    List (String × String) :=
  tokens.filter (fun p => p.1 != calendarUrl) ++ [(calendarUrl, token)]

/-- Outcome and trace of one calendar's sync pass. -/
structure CalendarPass where
  store : List StoredEvent
  nextId : Nat
  tokens : List (String × String)
  synced : Nat
  skipped : Nat
  deleted : Nat
  attemptedIncremental : Bool
  incrementalThrew : Bool
  sawDeletionsSignal : Bool
  usedFullFetch : Bool
  fullFetchThrew : Bool
  ranDeletionCheck : Bool
  fetchWindow : Option (JSDate × JSDate)

/-- One iteration of the `for (const rawCalendarUrl of selectedCalendarUrls)`
loop of `syncSelectedCalendars` (lines 413–570): strategy selection,
reconciliation, deletion detection after a full fetch, token bookkeeping.
A `fetchCalendarEvents` failure is caught by the per-calendar `catch`,
leaving store and tokens untouched. -/
def syncCalendarPass (env : SyncEnv) (store : List StoredEvent) (nextId : Nat)
    (tokens : List (String × String)) (rawCalendarUrl : String) : CalendarPass :=
  let calendarUrl := stripTrailingSlashes rawCalendarUrl
  let token := getToken tokens calendarUrl
  let attempted := jsTruthy token
  let fetched : Option SyncCollectionResult :=
    if jsTruthy token then env.syncCollectionResult calendarUrl (token.getD "") else none
  let threw := jsTruthy token && fetched.isNone
  let sawDel := match fetched with
    | some r => r.hasDeletions
    | none => false
  let syncResult := if sawDel then none else fetched
  match syncResult with
  | some r =>
      let st := r.events.foldl (reconcileEvent calendarUrl)
        ⟨store, nextId, 0, 0, []⟩
      let tokens' :=
        if jsTruthy r.syncToken then setToken tokens calendarUrl (r.syncToken.getD "")
        else tokens
      { store := st.store, nextId := st.nextId, tokens := tokens'
        synced := st.synced, skipped := st.skipped, deleted := 0
        attemptedIncremental := attempted, incrementalThrew := threw
        sawDeletionsSignal := sawDel, usedFullFetch := false, fullFetchThrew := false
        ranDeletionCheck := false, fetchWindow := none }
  | none =>
      let fullStartDate := yearShift env.now (-1)
      let fullEndDate := yearShift env.now 1
      match env.fetchEventsResult calendarUrl fullStartDate fullEndDate with
      | none =>
          { store := store, nextId := nextId, tokens := tokens
            synced := 0, skipped := 0, deleted := 0
            attemptedIncremental := attempted, incrementalThrew := threw
            sawDeletionsSignal := sawDel, usedFullFetch := true, fullFetchThrew := true
            ranDeletionCheck := false, fetchWindow := some (fullStartDate, fullEndDate) }
      | some events =>
          let st := events.foldl (reconcileEvent calendarUrl)
            ⟨store, nextId, 0, 0, []⟩
          let del := deleteRemovedEvents st.store calendarUrl st.seenUids events
          let tokens' :=
            let nextToken := env.fetchSyncTokenResult calendarUrl
            if jsTruthy nextToken then setToken tokens calendarUrl (nextToken.getD "")
            else tokens
          { store := del.2, nextId := st.nextId, tokens := tokens'
            synced := st.synced, skipped := st.skipped, deleted := del.1
            attemptedIncremental := attempted, incrementalThrew := threw
            sawDeletionsSignal := sawDel, usedFullFetch := true, fullFetchThrew := false
            ranDeletionCheck := true, fetchWindow := some (fullStartDate, fullEndDate) }

/-- Accumulator of the calendar loop. -/
structure SyncLoopState where
  store : List StoredEvent
  nextId : Nat
  tokens : List (String × String)
  synced : Nat
  skipped : Nat
  deleted : Nat
  passes : List CalendarPass

/-- Run one calendar and fold its outcome into the accumulator
(`syncedCount += ...`, `deletedCount += ...`). -/
def stepCalendar (env : SyncEnv) (s : SyncLoopState) (rawCalendarUrl : String) :
    SyncLoopState :=
  let p := syncCalendarPass env s.store s.nextId s.tokens rawCalendarUrl
  { store := p.store, nextId := p.nextId, tokens := p.tokens
    synced := s.synced + p.synced, skipped := s.skipped + p.skipped
    deleted := s.deleted + p.deleted, passes := s.passes ++ [p] }

/-- The calendar loop of `syncSelectedCalendars`. -/
def syncLoop (env : SyncEnv) (s : SyncLoopState) : List String → SyncLoopState
  | [] => s
  | url :: rest => syncLoop env (stepCalendar env s url) rest

/-- Observable outcome of a `syncSelectedCalendars` call: the returned value
(or the propagated exception), the final store, the persisted token map, the
`syncInFlight` flag after the call, and the trace of per-calendar passes
(empty when the overlapping-call guard fired). -/
structure SyncOutcome where
  result : Except String Int
  store : List StoredEvent
  tokens : List (String × String)
  inFlight : Bool
  passes : List CalendarPass

/-- Source `syncSelectedCalendars(config, selectedCalendarUrls)`:
the `syncInFlight` guard, the calendar loop, `writeSyncTokens`, the
`-1`-on-deletions return contract, and the `finally` that clears the flag. -/
def syncSelectedCalendars (env : SyncEnv) (inFlight : Bool)
    (store : List StoredEvent) (nextId : Nat) (tokens : List (String × String))
    (selectedCalendarUrls : List String) : SyncOutcome :=
  if inFlight then
    { result := .ok 0, store := store, tokens := tokens
      inFlight := inFlight, passes := [] }
  else
    let s := syncLoop env ⟨store, nextId, tokens, 0, 0, 0, []⟩ selectedCalendarUrls
    if env.writeTokensThrows then
      { result := .error "writeSyncTokens failed", store := s.store, tokens := tokens
        inFlight := false, passes := s.passes }
    else
      { result := .ok (if s.deleted > 0 then -1 else (s.synced : Int))
        store := s.store, tokens := s.tokens
        inFlight := false, passes := s.passes }

/-! ### ICS codec (`icsParser.ts` serializer, proxy `parseICalEvent`)

The embedding fixes the JS runtime timezone to UTC (matching the UTC-based
decode side and the repository's own tests), models ICS text as a list of
logical property lines (line folding and ical.js text escaping are not
modelled; property values are carried verbatim), and models an unparsable
date/time (JS `Invalid Date`) as `none`. -/

/-- The last decimal digit of `n`, as a character. -/
def digitChar (n : Nat) : Char := Char.ofNat (48 + n % 10)

/-- Source `parseInt` on a single digit character. -/
def digitVal (c : Char) : Nat := c.toNat - 48

/-- Two-digit zero-padded rendering of `n < 100` (JS `padStart(2, '0')`,
ical.js date tokens). -/
def pad2 (n : Nat) : List Char := [digitChar (n / 10), digitChar n]

/-- Four-digit zero-padded rendering of `n < 10000`. -/
def pad4 (n : Nat) : List Char :=
  [digitChar (n / 1000), digitChar (n / 100), digitChar (n / 10), digitChar n]

/-- Source `parseInt` on a digit string. -/
def parseDigits (cs : List Char) : Nat :=
  cs.foldl (fun acc c => acc * 10 + digitVal c) 0

/-- A calendar date (year, month 1–12, day 1–31). -/
structure Ymd where
  y : Nat
  m : Nat
  d : Nat
deriving Repr, DecidableEq

def isLeap (y : Nat) : Bool :=
  (y % 4 == 0 && y % 100 != 0) || y % 400 == 0

def daysInMonth (y m : Nat) : Nat :=
  if m = 2 then (if isLeap y then 29 else 28)
  else if m = 4 ∨ m = 6 ∨ m = 9 ∨ m = 11 then 30
  else 31

/-- A well-formed calendar date with a four-digit year. -/
def ValidYmd (dt : Ymd) : Prop :=
  dt.y < 10000 ∧ 1 ≤ dt.m ∧ dt.m ≤ 12 ∧ 1 ≤ dt.d ∧ dt.d ≤ daysInMonth dt.y dt.m

instance (dt : Ymd) : Decidable (ValidYmd dt) := by
  unfold ValidYmd; infer_instance

/-- Source `nextDay.setDate(nextDay.getDate() + 1)`: the following calendar day. -/
def nextDay (dt : Ymd) : Ymd :=
  if dt.d + 1 ≤ daysInMonth dt.y dt.m then ⟨dt.y, dt.m, dt.d + 1⟩
  else if dt.m + 1 ≤ 12 then ⟨dt.y, dt.m + 1, 1⟩
  else ⟨dt.y + 1, 1, 1⟩

/-- Source `YYYY-MM-DD`. -/
def isoDateChars (dt : Ymd) : List Char :=
  pad4 dt.y ++ ['-'] ++ pad2 dt.m ++ ['-'] ++ pad2 dt.d

/-- Source `YYYY-MM-DD` as a `String` (the `Event.date` format and the
`toISOString().split('T')[0]` output). -/
def isoDateStr (dt : Ymd) : String := String.mk (isoDateChars dt)

/-- The date-only ICS token `YYYYMMDD`. -/
def basicDateChars (dt : Ymd) : List Char :=
  pad4 dt.y ++ pad2 dt.m ++ pad2 dt.d

/-- Source `HH:MM`. -/
def timeChars (h min : Nat) : List Char := pad2 h ++ [':'] ++ pad2 min

/-- Source `HH:MM` as a `String` (the `Event.startTime`/`endTime` format). -/
def timeStr (h min : Nat) : String := String.mk (timeChars h min)

/-- The date-time ICS token `YYYYMMDDTHHMMSS` (seconds always `00`: the app
builds times from `HH:MM` strings). -/
def basicDateTimeChars (dt : Ymd) (h min : Nat) : List Char :=
  basicDateChars dt ++ ['T'] ++ pad2 h ++ pad2 min ++ ['0', '0']

/-- Source `new Date("YYYY-MM-DD")` (UTC runtime): `some` of the date when the
string is a well-formed in-range ISO date, `none` (Invalid Date) otherwise. -/
def mkIsoDate (y1 y2 y3 y4 s1 m1 m2 s2 d1 d2 : Char) : Option Ymd :=
  if s1 = '-' ∧ s2 = '-' ∧ ([y1, y2, y3, y4, m1, m2, d1, d2].all Char.isDigit) then
    let y := parseDigits [y1, y2, y3, y4]
    let m := parseDigits [m1, m2]
    let d := parseDigits [d1, d2]
    if 1 ≤ m ∧ m ≤ 12 ∧ 1 ≤ d ∧ d ≤ daysInMonth y m then some ⟨y, m, d⟩ else none
  else none

def parseIsoDate (cs : List Char) : Option Ymd :=
  match cs with
  | [y1, y2, y3, y4, s1, m1, m2, s2, d1, d2] =>
      mkIsoDate y1 y2 y3 y4 s1 m1 m2 s2 d1 d2
  | _ => none

/-- The `HH:MM` part of `new Date("YYYY-MM-DDTHH:MM")`: `some` for a
well-formed in-range clock time, `none` (Invalid Date) otherwise. -/
def mkTimeHM (h1 h2 c m1 m2 : Char) : Option (Nat × Nat) :=
  if c = ':' ∧ ([h1, h2, m1, m2].all Char.isDigit) then
    let h := parseDigits [h1, h2]
    let min := parseDigits [m1, m2]
    if h < 24 ∧ min < 60 then some (h, min) else none
  else none

def parseTimeHM (cs : List Char) : Option (Nat × Nat) :=
  match cs with
  | [h1, h2, c, m1, m2] => mkTimeHM h1 h2 c m1 m2
  | _ => none

/-- JS `String.prototype.trim` on a character list. -/
def trimChars (cs : List Char) : List Char :=
  ((cs.dropWhile Char.isWhitespace).reverse.dropWhile Char.isWhitespace).reverse

/-- JS `String.prototype.replace('#', '')`: drop the first `#`. -/
def removeFirstHash : List Char → List Char
  | [] => []
  | c :: rest => if c = '#' then rest else c :: removeFirstHash rest

/-- One logical ICS property line: name, whether it carries the ical.js
`VALUE=DATE` parameter, and the property value. -/
structure ICSLine where
  name : String
  isDateValue : Bool
  value : List Char
deriving Repr, DecidableEq

/-- The fixed `VCALENDAR`/`VEVENT` wrapper emitted by `serializeEventToICS`,
around the date lines of the event. -/
def icsWrapper (summary description uid : String) (dateLines : List ICSLine)
    (stamp : List Char) : List ICSLine :=
  [⟨"BEGIN", false, "VCALENDAR".data⟩,
   ⟨"PRODID", false, "-//Vividly App//KR".data⟩,
   ⟨"VERSION", false, "2.0".data⟩,
   ⟨"BEGIN", false, "VEVENT".data⟩,
   ⟨"SUMMARY", false, summary.data⟩,
   ⟨"DESCRIPTION", false, description.data⟩,
   ⟨"UID", false, uid.data⟩]
  ++ dateLines ++
  [⟨"DTSTAMP", false, stamp⟩,
   ⟨"END", false, "VEVENT".data⟩,
   ⟨"END", false, "VCALENDAR".data⟩]

/-- The `Partial<Event>` fields consumed by `serializeEventToICS`. -/
structure EventInput where
  title : Option String
  memo : Option String
  date : Option String
  startTime : Option String
  endTime : Option String
  caldavUid : Option String
deriving Repr, DecidableEq

/-- Source `serializeEventToICS(event)` from `icsParser.ts`.  `freshUid` stands for
the generated `vividly-${Date.now()}-${random}` fallback UID and `stamp` for
`ICAL.Time.now()` (DTSTAMP).  Timed output needs both a truthy `startTime`
and a truthy `endTime`; otherwise the event is encoded as all-day with an
exclusive `DTEND` on the following day. -/
def serializeEventToICS (ev : EventInput) (freshUid : String) (stamp : List Char) :
    Option (List ICSLine) :=
  let summary := if jsTruthy ev.title then ev.title.getD "" else "새로운 일정"
  let description := ev.memo.getD ""
  let uid := if jsTruthy ev.caldavUid then ev.caldavUid.getD "" else freshUid
  if jsTruthy ev.date then
    match parseIsoDate (ev.date.getD "").data with
    | none => none
    | some dt =>
        if jsTruthy ev.startTime && jsTruthy ev.endTime then
          match parseTimeHM (ev.startTime.getD "").data,
              parseTimeHM (ev.endTime.getD "").data with
          | some s, some e =>
              some (icsWrapper summary description uid
                [⟨"DTSTART", false, basicDateTimeChars dt s.1 s.2⟩,
                 ⟨"DTEND", false, basicDateTimeChars dt e.1 e.2⟩] stamp)
          | _, _ => none
        else
          some (icsWrapper summary description uid
            [⟨"DTSTART", true, basicDateChars dt⟩,
             ⟨"DTEND", true, basicDateChars (nextDay dt)⟩] stamp)
  else
    some (icsWrapper summary description uid [] stamp)

/-- The regex `NAME(?:;.*?)?:([^\r\n]+)` over the block, in the line model:
first line with that property name and a non-empty value. -/
def findProp (lines : List ICSLine) (name : String) : Option (List Char) :=
  (lines.find? (fun l => l.name == name && !l.value.isEmpty)).map (·.value)

/-- The `DTSTART`/`DTEND` value dispatch of `parseICalEvent`: an 8-character
token is date-only, a token of length ≥ 15 is date + time (hour at 9–10,
minute at 11–12), anything else yields no date.  `parseInt` on the digit
substrings is `parseDigits` (`NaN` propagation for non-digit tokens is not
modelled). -/
def parseDtChars (cs : List Char) : Option (Ymd × Option (Nat × Nat)) :=
  match cs with
  | [y1, y2, y3, y4, m1, m2, d1, d2] =>
      some (⟨parseDigits [y1, y2, y3, y4], parseDigits [m1, m2],
        parseDigits [d1, d2]⟩, none)
  | y1 :: y2 :: y3 :: y4 :: m1 :: m2 :: d1 :: d2 :: _t :: h1 :: h2 :: n1 :: n2 :: rest =>
      if 2 ≤ rest.length then
        some (⟨parseDigits [y1, y2, y3, y4], parseDigits [m1, m2],
          parseDigits [d1, d2]⟩,
          some (parseDigits [h1, h2], parseDigits [n1, n2]))
      else none
  | _ => none

/-- Source `parseICalEvent(icalData, defaultColor)` from the CalDAV proxy: extract
UID/SUMMARY/DESCRIPTION/DTSTART/DTEND/color, fail without a `DTSTART`, decode
date tokens as UTC, render `date` as ISO and times as `HH:MM` (the in-range
`Date.UTC` components make `toISOString`/`getUTC*` the identity on them). -/
def parseICalEvent (lines : List ICSLine) (defaultColor : String) :
    Option RemoteEvent :=
  match findProp lines "DTSTART" with
  | none => none
  | some dtstartRaw =>
      let uid := (findProp lines "UID").map (fun v => String.mk (trimChars v))
      let summary := match findProp lines "SUMMARY" with
        | some v => String.mk (trimChars v)
        | none => ""
      let description := match findProp lines "DESCRIPTION" with
        | some v => String.mk (trimChars v)
        | none => ""
      let color := match findProp lines "X-APPLE-CALENDAR-COLOR" with
        | some v => "#" ++ String.mk (removeFirstHash (trimChars v))
        | none => defaultColor
      let dtstart := trimChars dtstartRaw
      let dtend := (findProp lines "DTEND").map trimChars
      match parseDtChars dtstart with
      | none => none
      | some (sdt, stime) =>
          let send := dtend.bind parseDtChars
          some
            { title := summary
              date := isoDateStr sdt
              memo := if description.isEmpty then none else some description
              startTime := stime.map (fun p => timeStr p.1 p.2)
              endTime := match send with
                | some (_, some p) => some (timeStr p.1 p.2)
                | _ => none
              color := color
              uid := uid }

/-! ### Proxy `deleteEvent` -/

/-- An HTTP request as issued by the proxy's `deleteEvent`. -/
structure HttpRequest where
  method : String
  url : String
  hasIfMatch : Bool
deriving Repr, DecidableEq

/-- Source `response.ok`: HTTP status in 200–299. -/
def responseOk (status : Nat) : Bool := 200 ≤ status && status ≤ 299

/-- Source `deleteEvent(serverUrl, username, password, calendarUrl, eventUid, etag)`
from the CalDAV proxy: issues a single `DELETE` for `<uid>.ics` under the
calendar (with `If-Match` when a truthy etag is supplied) and treats a 404
response as success; every other non-2xx response throws. -/
def deleteEvent (calendarUrl eventUid : String) (etag : Option String)
    (status : Nat) : List HttpRequest × Except String Bool :=
  let base := if calendarUrl.endsWith "/" then calendarUrl else calendarUrl ++ "/"
  let filename := if eventUid.endsWith ".ics" then eventUid else eventUid ++ ".ics"
  let req : HttpRequest := ⟨"DELETE", base ++ filename, jsTruthy etag⟩
  if !responseOk status && status ≠ 404 then
    ([req], .error ("DELETE request failed: " ++ toString status))
  else
    ([req], .ok true)

/-! ### Concrete scenario inputs -/

/-- The 20 stored caldav events of the deletion-guard scenario. -/
def c1Store : List StoredEvent :=
  (List.range 20).map (fun i =>
    { id := i
      title := "Event"
      date := "2024-01-01"
      memo := none
      startTime := none
      endTime := none
      color := "#111111"
      calendarUrl := some "https://cal.example/home"
      caldavUid := some ("uid-" ++ toString i)
      source := some "caldav" })

/-- The single remote event of the deletion-guard scenario, whose UID matches
none of the 20 stored ones. -/
def c1Remote : List RemoteEvent :=
  [{ title := "Other"
     date := "2024-02-02"
     memo := none
     startTime := none
     endTime := none
     color := "#222222"
     uid := some "uid-unmatched" }]

/-- A stored caldav event used in the field-diff scenarios. -/
def c6Existing : StoredEvent :=
  { id := 1
    title := "Lunch"
    date := "2024-03-01"
    memo := none
    startTime := none
    endTime := none
    color := "#111111"
    calendarUrl := some "https://cal.example/home"
    caldavUid := some "uid-c6"
    source := some "caldav" }

/-- A fetched remote copy of `c6Existing` that differs only in `color`. -/
def c6Remote : RemoteEvent :=
  { title := "Lunch"
    date := "2024-03-01"
    memo := none
    startTime := none
    endTime := none
    color := "#222222"
    uid := some "uid-c6" }

/-- The spec's timed event: both clock times present, determinate UID. -/
def c7Event : EventInput :=
  { title := some "Meeting"
    memo := none
    date := some "2024-01-29"
    startTime := some "10:00"
    endTime := some "11:00"
    caldavUid := some "uid-123" }

/-- An event with a `startTime` but no `endTime` (mixed presence). -/
def c7Mixed : EventInput :=
  { title := some "Meeting"
    memo := none
    date := some "2024-01-29"
    startTime := some "10:00"
    endTime := none
    caldavUid := some "uid-123" }

/-- The spec's all-day event. -/
def c8Event : EventInput :=
  { title := some "All Day Event"
    memo := none
    date := some "2024-01-29"
    startTime := none
    endTime := none
    caldavUid := none }

end Vividly

namespace Vividly

/-- C1: with at least 10 existing local caldav events for the calendar and
deletion candidates exceeding 90 % of them, `deleteRemovedEvents` deletes
nothing and returns 0. -/
theorem deleteRemovedEvents_runaway_guard
    (store : List StoredEvent) (calendarUrl : String)
    (currentUids : List String) (currentEvents : List RemoteEvent)
    (h10 : 10 ≤ (caldavEventsFor store (stripTrailingSlashes calendarUrl)).length)
    (h90 : 9 * (caldavEventsFor store (stripTrailingSlashes calendarUrl)).length <
      10 * (deletionCandidates (caldavEventsFor store (stripTrailingSlashes calendarUrl))
        currentUids currentEvents).length) :
    deleteRemovedEvents store calendarUrl currentUids currentEvents = (0, store) := by
  unfold deleteRemovedEvents
  dsimp only
  split
  · rfl
  · split
    · rfl
    · split
      · rfl
      · rename_i hguard
        exfalso
        apply hguard
        simp only [Bool.and_eq_true, decide_eq_true_eq, gt_iff_lt, ge_iff_le]
        exact ⟨by simpa using h10, by simpa using h90⟩

/-- C1 witness: 20 existing local events, a full fetch returning one event
with an unmatched UID — zero events are deleted. -/
theorem deleteRemovedEvents_runaway_guard_witness :
    deleteRemovedEvents c1Store "https://cal.example/home" ["uid-unmatched"] c1Remote
      = (0, c1Store) :=
  deleteRemovedEvents_runaway_guard c1Store "https://cal.example/home"
    ["uid-unmatched"] c1Remote (by decide) (by decide)

/-- C2: an empty fetched event list together with an empty seen-UID set makes
`deleteRemovedEvents` skip deletion entirely and return 0, for every store. -/
theorem deleteRemovedEvents_empty_fetch
    (store : List StoredEvent) (calendarUrl : String) :
    deleteRemovedEvents store calendarUrl [] [] = (0, store) := by
  unfold deleteRemovedEvents
  simp

/-- C3: a stored token triggers an incremental attempt; the pass uses the
full [−1y, +1y] fetch exactly when no token exists, the incremental call
threw, or its result signalled deletions; and the deletion check runs only in
passes that used the full fetch. -/
theorem syncCalendarPass_strategy (env : SyncEnv) (store : List StoredEvent)
    (nextId : Nat) (tokens : List (String × String)) (rawCalendarUrl : String) :
    let p := syncCalendarPass env store nextId tokens rawCalendarUrl
    (p.attemptedIncremental = jsTruthy (getToken tokens (stripTrailingSlashes rawCalendarUrl)))
    ∧ (p.usedFullFetch =
        (!jsTruthy (getToken tokens (stripTrailingSlashes rawCalendarUrl))
          || p.incrementalThrew || p.sawDeletionsSignal))
    ∧ (p.usedFullFetch = true →
        p.fetchWindow = some (yearShift env.now (-1), yearShift env.now 1))
    ∧ (p.ranDeletionCheck = true → p.usedFullFetch = true) := by
  unfold syncCalendarPass
  cases htok : jsTruthy (getToken tokens (stripTrailingSlashes rawCalendarUrl))
  · cases hfe : env.fetchEventsResult (stripTrailingSlashes rawCalendarUrl)
        (yearShift env.now (-1)) (yearShift env.now 1) <;>
      simp [htok, hfe]
  · cases hcall : env.syncCollectionResult (stripTrailingSlashes rawCalendarUrl)
        ((getToken tokens (stripTrailingSlashes rawCalendarUrl)).getD "") with
    | none =>
        cases hfe : env.fetchEventsResult (stripTrailingSlashes rawCalendarUrl)
            (yearShift env.now (-1)) (yearShift env.now 1) <;>
          simp [htok, hcall, hfe]
    | some r =>
        cases hdel : r.hasDeletions with
        | true =>
            cases hfe : env.fetchEventsResult (stripTrailingSlashes rawCalendarUrl)
                (yearShift env.now (-1)) (yearShift env.now 1) <;>
              simp [htok, hcall, hdel, hfe]
        | false => simp [htok, hcall, hdel]

/-- C4: a `syncSelectedCalendars` call that finds the in-flight flag set
returns 0 immediately, leaves store and tokens untouched, runs no calendar
pass, and does not clear the other call's flag. -/
theorem syncSelectedCalendars_overlap_guard (env : SyncEnv)
    (store : List StoredEvent) (nextId : Nat) (tokens : List (String × String))
    (urls : List String) :
    syncSelectedCalendars env true store nextId tokens urls =
      { result := .ok 0, store := store, tokens := tokens
        inFlight := true, passes := [] } := rfl

/-- Loop invariant: the accumulated `syncedCount`/`deletedCount` equal the
sums of the per-pass counters. -/
theorem syncLoop_counts (env : SyncEnv) (urls : List String) (s : SyncLoopState)
    (hs : s.synced = (s.passes.map (·.synced)).sum)
    (hd : s.deleted = (s.passes.map (·.deleted)).sum) :
    (syncLoop env s urls).synced = ((syncLoop env s urls).passes.map (·.synced)).sum
    ∧ (syncLoop env s urls).deleted = ((syncLoop env s urls).passes.map (·.deleted)).sum := by
  induction urls generalizing s with
  | nil => exact ⟨hs, hd⟩
  | cons url rest ih =>
      apply ih
      · simp [stepCalendar, hs]
      · simp [stepCalendar, hd]

/-- C5: on a pass that runs to normal completion, the return value is the
total created/updated count — a natural number — unless any deletion
occurred, in which case it is `-1`, which no plain count can equal. -/
theorem syncSelectedCalendars_return_contract (now : JSDate)
    (sc : String → String → Option SyncCollectionResult)
    (fe : String → JSDate → JSDate → Option (List RemoteEvent))
    (ft : String → Option String)
    (store : List StoredEvent) (nextId : Nat) (tokens : List (String × String))
    (urls : List String) :
    let o := syncSelectedCalendars ⟨now, sc, fe, ft, false⟩ false store nextId tokens urls
    let totalSynced : Nat := (o.passes.map (·.synced)).sum
    let totalDeleted : Nat := (o.passes.map (·.deleted)).sum
    o.result = .ok (if 0 < totalDeleted then (-1 : Int) else (totalSynced : Int))
    ∧ (0 < totalDeleted → o.result = .ok (-1))
    ∧ (totalDeleted = 0 → o.result = .ok (totalSynced : Int) ∧ ∀ n : Nat, ((n : Int) ≠ -1)) := by
  have h := syncLoop_counts ⟨now, sc, fe, ft, false⟩ urls
    ⟨store, nextId, tokens, 0, 0, 0, []⟩ rfl rfl
  dsimp only
  unfold syncSelectedCalendars
  dsimp only
  rw [if_neg (by simp), if_neg (by simp)]
  dsimp only
  refine ⟨?_, ?_, ?_⟩
  · rw [← h.1, ← h.2]
  · intro hpos
    rw [← h.2] at hpos
    rw [if_pos hpos]
  · intro hzero
    rw [← h.2] at hzero
    rw [← h.1, hzero]
    exact ⟨by norm_num, fun n => by omega⟩

/-- C10: every invocation that actually starts a pass (in-flight flag
initially clear) ends with the flag clear again, whether it returns normally
or propagates the `writeSyncTokens` exception. -/
theorem syncSelectedCalendars_flag_cleared (env : SyncEnv)
    (store : List StoredEvent) (nextId : Nat) (tokens : List (String × String))
    (urls : List String) :
    (syncSelectedCalendars env false store nextId tokens urls).inFlight = false := by
  unfold syncSelectedCalendars
  dsimp only
  cases h : env.writeTokensThrows <;> simp [h]

/-- C6 counterexample: a remote event differing from its stored counterpart
only in `color` triggers an update (the pass counts it as synced), yet the
stored row is unchanged — the changed color is not applied to the store. -/
theorem reconcile_color_update_dropped :
    c6Existing.color ≠ c6Remote.color
    ∧ (reconcileEvent "https://cal.example/home"
        ⟨[c6Existing], 2, 0, 0, []⟩ c6Remote).store = [c6Existing]
    ∧ (reconcileEvent "https://cal.example/home"
        ⟨[c6Existing], 2, 0, 0, []⟩ c6Remote).synced = 1 := by
  refine ⟨by decide, by decide, by decide⟩

/-- Helper: a successful `fetchEventByUID` implies `eventExistsByUID`. -/
theorem eventExistsByUID_of_fetch (store : List StoredEvent)
    (uid calendarUrl : String) (existing : StoredEvent)
    (h : fetchEventByUID store uid calendarUrl = some existing) :
    eventExistsByUID store uid calendarUrl = true := by
  unfold fetchEventByUID at h
  unfold eventExistsByUID
  have hp := @List.find?_some StoredEvent
    (fun e => e.caldavUid == some uid
      && e.calendarUrl == some (stripTrailingSlashes calendarUrl))
    existing store h
  exact List.any_eq_true.mpr ⟨existing, List.mem_of_find?_eq_some h, hp⟩

/-- Helper: `updateEventByUID` never changes a row's id or color. -/
theorem updateEventByUID_id_color (store : List StoredEvent)
    (uid calendarUrl : String) (u : UpdatePayload) :
    (updateEventByUID store uid calendarUrl u).map (fun e => (e.id, e.color))
      = store.map (fun e => (e.id, e.color)) := by
  unfold updateEventByUID
  rw [List.map_map]
  apply List.map_congr_left
  intro e _
  by_cases h : (e.caldavUid == some uid
      && e.calendarUrl == some (stripTrailingSlashes calendarUrl)) = true
  · simp [h, Function.comp, applyUpdatePayload]
  · simp [h, Function.comp]

/-- C6 (amended): for a remote event whose UID already has a local event for
`(uid, calendarUrl)`, the engine never creates a row; if none of the six
diffed fields differ the event is skipped and the store untouched; if any
differs, the `updateEventByUID` update is applied — but that update persists
only title/date/memo/startTime/endTime, never a changed color (every row
keeps its id and color). -/
theorem reconcileEvent_existing_update (calendarUrl : String)
    (st : ReconcileState) (ev : RemoteEvent) (existing : StoredEvent)
    (huid : jsTruthy ev.uid = true)
    (hfetch : fetchEventByUID st.store (ev.uid.getD "") calendarUrl = some existing) :
    let r := reconcileEvent calendarUrl st ev
    let u := computeUpdates existing ev
    (r.store.length = st.store.length)
    ∧ (hasUpdates u = false →
        r.store = st.store ∧ r.skipped = st.skipped + 1 ∧ r.synced = st.synced)
    ∧ (hasUpdates u = true →
        r.store = updateEventByUID st.store (ev.uid.getD "") calendarUrl u
        ∧ r.synced = st.synced + 1 ∧ r.skipped = st.skipped)
    ∧ (r.store.map (fun e => (e.id, e.color)) = st.store.map (fun e => (e.id, e.color))) := by
  have hex := eventExistsByUID_of_fetch st.store (ev.uid.getD "") calendarUrl existing hfetch
  dsimp only
  unfold reconcileEvent
  simp only [huid, hex, hfetch, eq_self_iff_true, if_true, ite_true]
  cases hu : hasUpdates (computeUpdates existing ev)
  · simp [hu]
  · simp only [hu, eq_self_iff_true, if_true, ite_true]
    refine ⟨?_, by simp, fun _ => ⟨trivial, trivial, trivial⟩, ?_⟩
    · simp [updateEventByUID]
    · exact updateEventByUID_id_color st.store (ev.uid.getD "") calendarUrl
        (computeUpdates existing ev)

/-- C6 witness: the amended theorem applied to a concrete store and remote
event (color-only change: update issued, store row keeps id and color). -/
theorem reconcileEvent_existing_update_witness :
    jsTruthy c6Remote.uid = true
    ∧ fetchEventByUID (ReconcileState.mk [c6Existing] 2 0 0 []).store
        (c6Remote.uid.getD "") "https://cal.example/home" = some c6Existing
    ∧ (let r := reconcileEvent "https://cal.example/home"
          (ReconcileState.mk [c6Existing] 2 0 0 []) c6Remote
       let u := computeUpdates c6Existing c6Remote
       (r.store.length = (ReconcileState.mk [c6Existing] 2 0 0 []).store.length)
       ∧ (hasUpdates u = false →
           r.store = (ReconcileState.mk [c6Existing] 2 0 0 []).store
           ∧ r.skipped = (ReconcileState.mk [c6Existing] 2 0 0 []).skipped + 1
           ∧ r.synced = (ReconcileState.mk [c6Existing] 2 0 0 []).synced)
       ∧ (hasUpdates u = true →
           r.store = updateEventByUID (ReconcileState.mk [c6Existing] 2 0 0 []).store
             (c6Remote.uid.getD "") "https://cal.example/home" u
           ∧ r.synced = (ReconcileState.mk [c6Existing] 2 0 0 []).synced + 1
           ∧ r.skipped = (ReconcileState.mk [c6Existing] 2 0 0 []).skipped)
       ∧ (r.store.map (fun e => (e.id, e.color))
           = (ReconcileState.mk [c6Existing] 2 0 0 []).store.map (fun e => (e.id, e.color)))) :=
  ⟨by decide, by decide,
    reconcileEvent_existing_update "https://cal.example/home"
      (ReconcileState.mk [c6Existing] 2 0 0 []) c6Remote c6Existing
      (by decide) (by decide)⟩

/-! ### Digit and date helper lemmas -/

theorem digitVal_digitChar (n : Nat) : digitVal (digitChar n) = n % 10 := by
  have h : n % 10 < 10 := Nat.mod_lt _ (by norm_num)
  unfold digitVal digitChar
  interval_cases h : n % 10 <;> rfl

theorem isDigit_digitChar (n : Nat) : (digitChar n).isDigit = true := by
  have h : n % 10 < 10 := Nat.mod_lt _ (by norm_num)
  unfold digitChar
  interval_cases h : n % 10 <;> rfl

theorem isWhitespace_digitChar (n : Nat) : (digitChar n).isWhitespace = false := by
  have h : n % 10 < 10 := Nat.mod_lt _ (by norm_num)
  unfold digitChar
  interval_cases h : n % 10 <;> rfl

theorem parseDigits_pad2 (n : Nat) (h : n < 100) : parseDigits (pad2 n) = n := by
  simp [parseDigits, pad2, List.foldl, digitVal_digitChar]
  omega

theorem parseDigits_pad4 (n : Nat) (h : n < 10000) : parseDigits (pad4 n) = n := by
  simp [parseDigits, pad4, List.foldl, digitVal_digitChar]
  omega

theorem daysInMonth_le_31 (y m : Nat) : daysInMonth y m ≤ 31 := by
  unfold daysInMonth
  split
  · split <;> omega
  · split <;> omega

theorem dropWhile_eq_self_of {α : Type} (p : α → Bool) (cs : List α)
    (h : ∀ c ∈ cs, p c = false) : cs.dropWhile p = cs := by
  cases cs with
  | nil => rfl
  | cons a l => simp [List.dropWhile, h a (by simp)]

theorem trimChars_eq_self (cs : List Char)
    (h : ∀ c ∈ cs, c.isWhitespace = false) : trimChars cs = cs := by
  unfold trimChars
  rw [dropWhile_eq_self_of _ _ h,
    dropWhile_eq_self_of _ _ (fun c hc => h c (List.mem_reverse.mp hc)),
    List.reverse_reverse]

theorem not_ws_basicDateChars (dt : Ymd) :
    ∀ c ∈ basicDateChars dt, c.isWhitespace = false := by
  intro c hc
  simp [basicDateChars, pad4, pad2] at hc
  rcases hc with h | h | h | h | h | h | h | h <;>
    (subst h; apply isWhitespace_digitChar)

theorem not_ws_basicDateTimeChars (dt : Ymd) (h min : Nat) :
    ∀ c ∈ basicDateTimeChars dt h min, c.isWhitespace = false := by
  intro c hc
  simp [basicDateTimeChars, basicDateChars, pad4, pad2] at hc
  rcases hc with h | h | h | h | h | h | h | h | h | h | h | h | h | h | h <;>
    first
      | (subst h; apply isWhitespace_digitChar)
      | (subst h; rfl)
      | rfl

theorem trim_basicDateChars (dt : Ymd) :
    trimChars (basicDateChars dt) = basicDateChars dt :=
  trimChars_eq_self _ (not_ws_basicDateChars dt)

theorem trim_basicDateTimeChars (dt : Ymd) (h min : Nat) :
    trimChars (basicDateTimeChars dt h min) = basicDateTimeChars dt h min :=
  trimChars_eq_self _ (not_ws_basicDateTimeChars dt h min)

theorem basicDateChars_ne_nil (dt : Ymd) : basicDateChars dt ≠ [] := by
  simp [basicDateChars, pad4, pad2]

theorem basicDateTimeChars_ne_nil (dt : Ymd) (h min : Nat) :
    basicDateTimeChars dt h min ≠ [] := by
  simp [basicDateTimeChars, basicDateChars, pad4, pad2]

theorem string_isEmpty_false_of_data (s : String) (h : s.data ≠ []) :
    s.isEmpty = false := by
  apply Bool.eq_false_iff.mpr
  intro hc
  apply h
  have hs := (String.isEmpty_iff s).mp hc
  rw [hs]

theorem isoDateStr_isEmpty (dt : Ymd) : (isoDateStr dt).isEmpty = false :=
  string_isEmpty_false_of_data _ (by simp [isoDateStr, isoDateChars, pad4, pad2])

theorem timeStr_isEmpty (h min : Nat) : (timeStr h min).isEmpty = false :=
  string_isEmpty_false_of_data _ (by simp [timeStr, timeChars, pad2])

theorem parseIsoDate_iso (dt : Ymd) (hv : ValidYmd dt) :
    parseIsoDate (isoDateChars dt) = some dt := by
  obtain ⟨hy, hm1, hm2, hd1, hd2⟩ := hv
  have hdlt : dt.d < 100 := by
    have := daysInMonth_le_31 dt.y dt.m; omega
  have h4 := parseDigits_pad4 dt.y hy
  have hm := parseDigits_pad2 dt.m (by omega)
  have hd := parseDigits_pad2 dt.d hdlt
  simp only [pad4] at h4
  simp only [pad2] at hm hd
  have hshape : parseIsoDate (isoDateChars dt)
      = mkIsoDate (digitChar (dt.y / 1000)) (digitChar (dt.y / 100))
          (digitChar (dt.y / 10)) (digitChar dt.y) '-'
          (digitChar (dt.m / 10)) (digitChar dt.m) '-'
          (digitChar (dt.d / 10)) (digitChar dt.d) := rfl
  rw [hshape]
  unfold mkIsoDate
  rw [if_pos ⟨rfl, rfl, by simp [isDigit_digitChar]⟩]
  dsimp only
  rw [h4, hm, hd]
  rw [if_pos ⟨hm1, hm2, hd1, hd2⟩]

theorem parseTimeHM_timeChars (h min : Nat) (hh : h < 24) (hmin : min < 60) :
    parseTimeHM (timeChars h min) = some (h, min) := by
  have hph := parseDigits_pad2 h (by omega)
  have hpm := parseDigits_pad2 min (by omega)
  simp only [pad2] at hph hpm
  have hshape : parseTimeHM (timeChars h min)
      = mkTimeHM (digitChar (h / 10)) (digitChar h) ':'
          (digitChar (min / 10)) (digitChar min) := rfl
  rw [hshape]
  unfold mkTimeHM
  rw [if_pos ⟨rfl, by simp [isDigit_digitChar]⟩]
  dsimp only
  rw [hph, hpm]
  rw [if_pos ⟨hh, hmin⟩]

theorem parseDtChars_date_shape (dt : Ymd) :
    parseDtChars (basicDateChars dt)
      = some (⟨parseDigits (pad4 dt.y), parseDigits (pad2 dt.m),
          parseDigits (pad2 dt.d)⟩, none) := rfl

theorem parseDtChars_date (dt : Ymd) (hv : ValidYmd dt) :
    parseDtChars (basicDateChars dt) = some (dt, none) := by
  obtain ⟨hy, hm1, hm2, hd1, hd2⟩ := hv
  have hdlt : dt.d < 100 := by
    have := daysInMonth_le_31 dt.y dt.m; omega
  rw [parseDtChars_date_shape, parseDigits_pad4 _ hy,
    parseDigits_pad2 _ (by omega), parseDigits_pad2 _ hdlt]

theorem parseDtChars_dateTime_shape (dt : Ymd) (h min : Nat) :
    parseDtChars (basicDateTimeChars dt h min)
      = some (⟨parseDigits (pad4 dt.y), parseDigits (pad2 dt.m),
          parseDigits (pad2 dt.d)⟩,
          some (parseDigits (pad2 h), parseDigits (pad2 min))) := rfl

theorem parseDtChars_dateTime (dt : Ymd) (h min : Nat) (hv : ValidYmd dt)
    (hh : h < 100) (hmin : min < 100) :
    parseDtChars (basicDateTimeChars dt h min) = some (dt, some (h, min)) := by
  obtain ⟨hy, hm1, hm2, hd1, hd2⟩ := hv
  have hdlt : dt.d < 100 := by
    have := daysInMonth_le_31 dt.y dt.m; omega
  rw [parseDtChars_dateTime_shape, parseDigits_pad4 _ hy,
    parseDigits_pad2 _ (by omega), parseDigits_pad2 _ hdlt,
    parseDigits_pad2 _ hh, parseDigits_pad2 _ hmin]

theorem findProp_wrapper_dtstart (s d u : String) (b1 b2 : Bool)
    (v1 v2 stamp : List Char) (h : v1 ≠ []) :
    findProp (icsWrapper s d u
      [⟨"DTSTART", b1, v1⟩, ⟨"DTEND", b2, v2⟩] stamp) "DTSTART" = some v1 := by
  have hv : v1.isEmpty = false := by simpa using h
  simp [icsWrapper, findProp, List.find?, hv]

theorem findProp_wrapper_dtend (s d u : String) (b1 b2 : Bool)
    (v1 v2 stamp : List Char) (h : v2 ≠ []) :
    findProp (icsWrapper s d u
      [⟨"DTSTART", b1, v1⟩, ⟨"DTEND", b2, v2⟩] stamp) "DTEND" = some v2 := by
  have hv : v2.isEmpty = false := by simpa using h
  simp [icsWrapper, findProp, List.find?, hv]

theorem findProp_wrapper_uid (s d u : String) (b1 b2 : Bool)
    (v1 v2 stamp : List Char) (h : u.data ≠ []) :
    findProp (icsWrapper s d u
      [⟨"DTSTART", b1, v1⟩, ⟨"DTEND", b2, v2⟩] stamp) "UID" = some u.data := by
  have hv : u.data.isEmpty = false := by simpa using h
  simp [icsWrapper, findProp, List.find?, hv]

theorem jsTruthy_none : jsTruthy none = false := rfl

theorem jsTruthy_some (s : String) : jsTruthy (some s) = !s.isEmpty := rfl

/-- Parsing the serializer's wrapper: the DTSTART/DTEND/UID lookups resolve
to the emitted lines, so the decoded date, times and UID are determined by
the two date tokens and the UID value alone. -/
theorem parseICalEvent_wrapper (s d u defaultColor : String) (b1 b2 : Bool)
    (v1 v2 stamp : List Char) (dt1 dt2 : Ymd) (t1 t2 : Option (Nat × Nat))
    (hne1 : v1 ≠ []) (hne2 : v2 ≠ []) (hu : u.data ≠ [])
    (htrim : trimChars u.data = u.data)
    (hp1 : parseDtChars (trimChars v1) = some (dt1, t1))
    (hp2 : parseDtChars (trimChars v2) = some (dt2, t2)) :
    ∃ dec, parseICalEvent (icsWrapper s d u
        [⟨"DTSTART", b1, v1⟩, ⟨"DTEND", b2, v2⟩] stamp) defaultColor = some dec
      ∧ dec.date = isoDateStr dt1
      ∧ dec.startTime = t1.map (fun p => timeStr p.1 p.2)
      ∧ dec.endTime = (match (some (dt2, t2) : Option (Ymd × Option (Nat × Nat))) with
          | some (_, some p) => some (timeStr p.1 p.2)
          | _ => none)
      ∧ dec.uid = some u := by
  have hS := findProp_wrapper_dtstart s d u b1 b2 v1 v2 stamp hne1
  have hE := findProp_wrapper_dtend s d u b1 b2 v1 v2 stamp hne2
  have hU := findProp_wrapper_uid s d u b1 b2 v1 v2 stamp hu
  unfold parseICalEvent
  rw [hS]
  simp only [hU, hE, Option.map_some', Option.some_bind, htrim, hp1, hp2]
  exact ⟨_, rfl, rfl, rfl, rfl, rfl⟩

theorem daysInMonth_pos (y m : Nat) : 1 ≤ daysInMonth y m := by
  unfold daysInMonth
  split
  · split <;> omega
  · split <;> omega

/-- C8: encoding the all-day event of 2024-01-29 yields exactly one DTSTART
and one DTEND line, carrying the date-only tokens `20240129` and `20240130`
(ical.js `VALUE=DATE` form), with no time component in either token. -/
theorem serialize_allday_tokens :
    ((serializeEventToICS c8Event "vividly-1700000000000-abc123"
        ("20240315T120000Z".data)).map
      (fun lines => lines.filter (fun l => l.name == "DTSTART")))
      = some [⟨"DTSTART", true, "20240129".data⟩]
    ∧ ((serializeEventToICS c8Event "vividly-1700000000000-abc123"
        ("20240315T120000Z".data)).map
      (fun lines => lines.filter (fun l => l.name == "DTEND")))
      = some [⟨"DTEND", true, "20240130".data⟩]
    ∧ ('T' ∈ ("20240129".data) → False) ∧ ('T' ∈ ("20240130".data) → False) := by
  refine ⟨by decide, by decide, by decide, by decide⟩

/-- C7 counterexample: an event with a `startTime` but no `endTime` is
encoded as all-day, so decoding drops the start time — presence of
`startTime` is not preserved by the round trip. -/
theorem roundtrip_mixed_time_dropped :
    c7Mixed.startTime.isSome = true
    ∧ ((serializeEventToICS c7Mixed "vividly-1700000000000-abc123"
          ("20240315T120000Z".data)).bind
        (fun lines => parseICalEvent lines "#CCCCCC")).map
          (fun dec => dec.startTime.isSome)
      = some false := by
  refine ⟨by decide, by decide⟩

/-- C7 (amended): for every Event with a determinate (non-empty, trimmed,
escape-free) UID, a well-formed date, and clock times that are either both
present or both absent, decoding the encoded ICS yields an event with the
same date, the same joint presence/absence of startTime and endTime, and the
same UID. -/
theorem icsRoundTrip (ev : EventInput) (dt : Ymd)
    (u freshUid defaultColor : String) (stamp : List Char)
    (hdate : ev.date = some (isoDateStr dt))
    (hvalid : ValidYmd dt)
    (huid : ev.caldavUid = some u)
    (hne : u ≠ "")
    (htrim : trimChars u.data = u.data)
    (htimes : (ev.startTime = none ∧ ev.endTime = none) ∨
      (∃ sh sm eh em, sh < 24 ∧ sm < 60 ∧ eh < 24 ∧ em < 60 ∧
        ev.startTime = some (timeStr sh sm) ∧ ev.endTime = some (timeStr eh em))) :
    ∃ lines dec,
      serializeEventToICS ev freshUid stamp = some lines
      ∧ parseICalEvent lines defaultColor = some dec
      ∧ dec.date = isoDateStr dt
      ∧ dec.startTime.isSome = ev.startTime.isSome
      ∧ dec.endTime.isSome = ev.endTime.isSome
      ∧ dec.uid = some u := by
  have hudata : u.data ≠ [] := by
    intro hd
    apply hne
    apply String.ext
    rw [hd]
  have hueF : u.isEmpty = false := string_isEmpty_false_of_data u hudata
  have hJdate : jsTruthy ev.date = true := by
    rw [hdate, jsTruthy_some, isoDateStr_isEmpty]
    rfl
  have hJuid : jsTruthy ev.caldavUid = true := by
    rw [huid, jsTruthy_some, hueF]
    rfl
  have hparse : parseIsoDate (ev.date.getD "").data = some dt := by
    rw [hdate]
    exact parseIsoDate_iso dt hvalid
  have huidval : (if jsTruthy ev.caldavUid then ev.caldavUid.getD "" else freshUid) = u := by
    rw [hJuid, huid]
    rfl
  rcases htimes with ⟨hs, he⟩ | ⟨sh, sm, eh, em, hsh, hsm, heh, hem, hs, he⟩
  · have hser : serializeEventToICS ev freshUid stamp
        = some (icsWrapper
            (if jsTruthy ev.title then ev.title.getD "" else "새로운 일정")
            (ev.memo.getD "") u
            [⟨"DTSTART", true, basicDateChars dt⟩,
             ⟨"DTEND", true, basicDateChars (nextDay dt)⟩] stamp) := by
      unfold serializeEventToICS
      rw [huidval]
      simp only [hJdate, hparse, hs, he, jsTruthy_none, Bool.false_and,
        Bool.and_false, Bool.false_eq_true, if_false, ite_false,
        eq_self_iff_true, if_true, ite_true]
    obtain ⟨dec, hdec, hdd, hds, hde, hdu⟩ :=
      parseICalEvent_wrapper
        (if jsTruthy ev.title then ev.title.getD "" else "새로운 일정")
        (ev.memo.getD "") u defaultColor true true
        (basicDateChars dt) (basicDateChars (nextDay dt)) stamp
        dt ⟨parseDigits (pad4 (nextDay dt).y), parseDigits (pad2 (nextDay dt).m),
          parseDigits (pad2 (nextDay dt).d)⟩ none none
        (basicDateChars_ne_nil dt) (basicDateChars_ne_nil (nextDay dt)) hudata htrim
        (by rw [trim_basicDateChars]; exact parseDtChars_date dt hvalid)
        (by rw [trim_basicDateChars]; exact parseDtChars_date_shape (nextDay dt))
    refine ⟨_, dec, hser, hdec, hdd, ?_, ?_, hdu⟩
    · rw [hds, hs]
      rfl
    · rw [hde, he]
  · have hJs : jsTruthy ev.startTime = true := by
      rw [hs, jsTruthy_some, timeStr_isEmpty]
      rfl
    have hJe : jsTruthy ev.endTime = true := by
      rw [he, jsTruthy_some, timeStr_isEmpty]
      rfl
    have hts : parseTimeHM (ev.startTime.getD "").data = some (sh, sm) := by
      rw [hs]
      exact parseTimeHM_timeChars sh sm hsh hsm
    have hte : parseTimeHM (ev.endTime.getD "").data = some (eh, em) := by
      rw [he]
      exact parseTimeHM_timeChars eh em heh hem
    have hser : serializeEventToICS ev freshUid stamp
        = some (icsWrapper
            (if jsTruthy ev.title then ev.title.getD "" else "새로운 일정")
            (ev.memo.getD "") u
            [⟨"DTSTART", false, basicDateTimeChars dt sh sm⟩,
             ⟨"DTEND", false, basicDateTimeChars dt eh em⟩] stamp) := by
      unfold serializeEventToICS
      rw [huidval]
      simp only [hJdate, hparse, hJs, hJe, hts, hte, Bool.and_self,
        eq_self_iff_true, if_true, ite_true]
    obtain ⟨dec, hdec, hdd, hds, hde, hdu⟩ :=
      parseICalEvent_wrapper
        (if jsTruthy ev.title then ev.title.getD "" else "새로운 일정")
        (ev.memo.getD "") u defaultColor false false
        (basicDateTimeChars dt sh sm) (basicDateTimeChars dt eh em) stamp
        dt dt (some (sh, sm)) (some (eh, em))
        (basicDateTimeChars_ne_nil dt sh sm) (basicDateTimeChars_ne_nil dt eh em)
        hudata htrim
        (by rw [trim_basicDateTimeChars]
            exact parseDtChars_dateTime dt sh sm hvalid (by omega) (by omega))
        (by rw [trim_basicDateTimeChars]
            exact parseDtChars_dateTime dt eh em hvalid (by omega) (by omega))
    refine ⟨_, dec, hser, hdec, hdd, ?_, ?_, hdu⟩
    · rw [hds, hs]
      rfl
    · rw [hde, he]

/-- C7 witness: the amended round trip at the spec's timed event
(`Meeting`, 2024-01-29, 10:00–11:00, UID `uid-123`). -/
theorem icsRoundTrip_witness :
    c7Event.date = some (isoDateStr ⟨2024, 1, 29⟩)
    ∧ ValidYmd ⟨2024, 1, 29⟩
    ∧ c7Event.caldavUid = some "uid-123"
    ∧ "uid-123" ≠ ""
    ∧ trimChars "uid-123".data = "uid-123".data
    ∧ (∃ lines dec,
        serializeEventToICS c7Event "vividly-1700000000000-abc123"
          ("20240315T120000Z".data) = some lines
        ∧ parseICalEvent lines "#CCCCCC" = some dec
        ∧ dec.date = isoDateStr ⟨2024, 1, 29⟩
        ∧ dec.startTime.isSome = c7Event.startTime.isSome
        ∧ dec.endTime.isSome = c7Event.endTime.isSome
        ∧ dec.uid = some "uid-123") :=
  ⟨by decide, by decide, by decide, by decide, by decide,
    icsRoundTrip c7Event ⟨2024, 1, 29⟩ "uid-123" "vividly-1700000000000-abc123"
      "#CCCCCC" ("20240315T120000Z".data) (by decide) (by decide) (by decide)
      (by decide) (by decide)
      (Or.inr ⟨10, 0, 11, 0, by decide, by decide, by decide, by decide,
        by decide, by decide⟩)⟩

/-- C9: the proxy's `deleteEvent` issues exactly one DELETE request, for the
single resource `<uid>.ics` under the calendar; a 404 ("not found") response
is treated as success like any 2xx, and every other non-2xx status raises. -/
theorem deleteEvent_not_found_ok (calendarUrl eventUid : String)
    (etag : Option String) (status : Nat) :
    (deleteEvent calendarUrl eventUid etag status).1
      = [⟨"DELETE",
          (if calendarUrl.endsWith "/" then calendarUrl else calendarUrl ++ "/")
            ++ (if eventUid.endsWith ".ics" then eventUid else eventUid ++ ".ics"),
          jsTruthy etag⟩]
    ∧ ((deleteEvent calendarUrl eventUid etag status).2 = .ok true
        ↔ (responseOk status = true ∨ status = 404))
    ∧ (¬(responseOk status = true ∨ status = 404) →
        (deleteEvent calendarUrl eventUid etag status).2
          = .error ("DELETE request failed: " ++ toString status)) := by
  unfold deleteEvent
  dsimp only
  by_cases h404 : status = 404
  · subst h404
    rw [if_neg (by simp)]
    exact ⟨rfl, by simp, fun hcontra => absurd (Or.inr rfl) hcontra⟩
  · by_cases hok : responseOk status = true
    · rw [if_neg (by simp [hok])]
      exact ⟨rfl, by simp [hok], fun hcontra => absurd (Or.inl hok) hcontra⟩
    · have hokF : responseOk status = false := Bool.eq_false_iff.mpr hok
      rw [if_pos (by simp [hokF, h404])]
      refine ⟨rfl, ?_, fun _ => rfl⟩
      simp [hok, h404]
end Vividly
